import Mathlib

/-!
Verification development for the Go-ytb-comments repository (main.go).

The program fetches YouTube comments for a list of video URLs.  Its core
(`getComments`, main.go:41-105) spawns one goroutine per URL; each goroutine
waits once on a shared token-bucket rate limiter
(`rate.NewLimiter(rate.Every(time.Second), 1)`, main.go:43), then runs an
`operation` closure under `backoff.Retry` (main.go:97).  The closure builds an
HTTP client, extracts the video id from the URL (`getVideoId`, main.go:33-39),
opens `comments_<id>.txt` with `O_APPEND|O_CREATE|O_WRONLY` (main.go:70-71),
performs the remote comment-listing call, and appends one line
`Comment from <author>: <text>` per returned record (main.go:86-92).

The definitions below are a shallow embedding of that code: the file system is
a map from names to contents, the outside world (HTTP client construction,
file-open success, the remote response, write success) is an explicit
per-attempt environment, and `backoff.Retry`'s elapsed-time budget is an
explicit retry-fuel parameter.
-/

/-- Characters Go's `net/url.Parse` rejects anywhere in a URL: ASCII control
characters (`stringContainsCTLByte`: byte < 0x20 or byte = 0x7f). -/
def isCtlChar (c : Char) : Bool := c.toNat < 32 || c.toNat == 127

/-- Whether a locator string contains a control character; this is the
failure condition of the modelled `url.Parse`. -/
def containsCtl (s : String) : Bool := s.data.any isCtlChar

/-- Characters strictly after the first occurrence of `c`, if `c` occurs. -/
def charsAfterFirst (c : Char) : List Char → Option (List Char)
  | [] => none
  | x :: xs => if x = c then some xs else charsAfterFirst c xs

/-- Characters strictly before the first occurrence of `c` (the whole list if
`c` does not occur). -/
def charsBeforeFirst (c : Char) : List Char → List Char
  | [] => []
  | x :: xs => if x = c then [] else x :: charsBeforeFirst c xs

/-- The raw query of a URL as Go's `net/url` computes it: the part after the
first `?` of the part before the first `#`; empty when there is no `?`. -/
def urlRawQuery (l : List Char) : List Char :=
  match charsAfterFirst '?' (charsBeforeFirst '#' l) with
  | some q => q
  | none => []

/-- Splits a raw query on `&`, keeping empty segments (Go's
`url.parseQuery` cuts on `&` and filters afterwards). -/
def splitAmpAux : List Char → List Char → List (List Char)
  | [], acc => [acc.reverse]
  | x :: xs, acc =>
    if x = '&' then acc.reverse :: splitAmpAux xs [] else splitAmpAux xs (x :: acc)

/-- The `key=value` segments of a raw query. -/
def queryPairs (q : List Char) : List (List Char) := splitAmpAux q []

/-- The value a segment contributes for `key`, if any.  Following Go's
`url.parseQuery`: a segment containing `;` is dropped with an error that
`URL.Query()` swallows, an empty segment is skipped, otherwise the segment is
cut at the first `=` into key and value (value empty when there is no `=`).
Percent-decoding is not modelled; the inputs used below contain no escapes. -/
def segValue (key p : List Char) : Option (List Char) :=
  if p.any (fun c => c = ';') then none
  else if p = [] then none
  else if charsBeforeFirst '=' p = key then some ((charsAfterFirst '=' p).getD [])
  else none

/-- First value bound to `key` among the query segments, or the empty string,
as Go's `url.Values.Get` returns `v[0]` or `""`. -/
def queryGetFirst (key : List Char) : List (List Char) → List Char
  | [] => []
  | p :: ps =>
    match segValue key p with
    | some v => v
    | none => queryGetFirst key ps

/-- `u.Query().Get(key)` for the modelled URL `s`. -/
def urlQueryGet (s : String) (key : String) : String :=
  String.mk (queryGetFirst key.data (queryPairs (urlRawQuery s.data)))

/-- Embedding of `getVideoId` (main.go:33-39): parse the URL (modelled
failure condition: a control character, Go's `net/url.Parse` rejection) and
on success return `u.Query().Get("v")` with a nil error — even when that
query value is absent, in which case the returned identifier is `""`. -/
def getVideoId (videoUrl : String) : Except String String :=
  if containsCtl videoUrl then Except.error "failed to parse URL"
  else Except.ok (urlQueryGet videoUrl "v")

/-- A fetched comment record: author display name and text
(main.go:86-88 reads `AuthorDisplayName` and `TextDisplay`). -/
structure CommentRecord where
  authorDisplayName : String
  text : String
deriving DecidableEq

/-- The error kinds the `operation` closure (main.go:55-95) can return, in
source order: client construction, URL parsing, file open, the remote API
call, and writing to the file. -/
inductive TaskError where
  | clientError
  | invalidURL
  | fileOpenError
  | apiCallError
  | writeError
deriving DecidableEq

/-- Diagnostics the goroutine prints: the rate-limit wait error
(main.go:51) and the retry-exhausted error (main.go:99). -/
inductive Diag where
  | rateLimitError
  | failedRetrieve (e : TaskError)
deriving DecidableEq

/-- The file system: file name to content, `none` when the file does not
exist. -/
abbrev FS := String → Option String

/-- Effect of `os.OpenFile(name, O_APPEND|O_CREATE|O_WRONLY, 0644)`
(main.go:71): creates the file empty when absent, leaves content intact when
present. -/
def FS.openAppendCreate (fs : FS) (n : String) : FS :=
  fun m => if m = n then some ((fs n).getD "") else fs m

/-- Appending `s` to file `n` (the buffered writes of main.go:88, flushed by
the deferred `writer.Flush`, land at the end of the append-mode file). -/
def FS.appendStr (fs : FS) (n : String) (s : String) : FS :=
  fun m => if m = n then some ((fs n).getD "" ++ s) else fs m

/-- `defaultCommentsFileName` (main.go:26). -/
def defaultCommentsFileName : String := "comments"

/-- The sink file name, `fmt.Sprintf("%s_%s.txt", defaultCommentsFileName,
videoId)` (main.go:70). -/
def commentsFileName (videoId : String) : String :=
  defaultCommentsFileName ++ "_" ++ videoId ++ ".txt"

/-- One output line, `fmt.Fprintf(writer, "Comment from %s: %s\n", ...)`
(main.go:88). -/
def formatLine (r : CommentRecord) : String :=
  "Comment from " ++ r.authorDisplayName ++ ": " ++ r.text ++ "\n"

/-- The lines written for a response, in order (the loop of main.go:86-92). -/
def formatRecords : List CommentRecord → String
  | [] => ""
  | r :: rs => formatLine r ++ formatRecords rs

/-- The first `n` characters of a string. -/
def strTake (s : String) (n : Nat) : String := String.mk (s.data.take n)

/-- The outside world seen by one invocation of the `operation` closure:
whether `youtube.New` succeeds, whether the file open succeeds, the remote
call's outcome, and the write path's outcome.  `writeFailAfter = none` means
every `fmt.Fprintf` and the deferred `writer.Flush` succeed; `some p` means
the buffered write path fails after the first `p` characters of the attempt's
output have reached the file — the records go through a `bufio.Writer`
(main.go:77), so complete earlier flushes (and a partial final flush) can
land in the file before a later write errors, and the bytes that land are a
prefix of the formatted output written so far. -/
structure AttemptEnv where
  clientOk : Bool
  openOk : Bool
  remoteResult : Except Unit (List CommentRecord)
  writeFailAfter : Option Nat

/-- One invocation of the `operation` closure (main.go:55-95), in source
order: client construction, `getVideoId`, file open (append+create), the
remote call, then the per-record writes.  Returns the updated file system and
the closure's error result.  `maxComments` is passed to the remote call
(main.go:80) and does not otherwise affect the closure. -/
def runOperation (env : AttemptEnv) (videoUrl : String) (maxComments : Int) (fs : FS) :
    FS × Except TaskError Unit :=
  if env.clientOk = false then (fs, Except.error TaskError.clientError)
  else
    match getVideoId videoUrl with
    | Except.error _ => (fs, Except.error TaskError.invalidURL)
    | Except.ok videoId =>
      if env.openOk = false then (fs, Except.error TaskError.fileOpenError)
      else
        let fs1 := FS.openAppendCreate fs (commentsFileName videoId)
        match env.remoteResult with
        | Except.error _ => (fs1, Except.error TaskError.apiCallError)
        | Except.ok items =>
          match env.writeFailAfter with
          | some p =>
            (FS.appendStr fs1 (commentsFileName videoId) (strTake (formatRecords items) p),
              Except.error TaskError.writeError)
          | none =>
            (FS.appendStr fs1 (commentsFileName videoId) (formatRecords items), Except.ok ())

/-- `backoff.Retry(operation, backoff.NewExponentialBackOff())` (main.go:97)
threaded through the file system: invoke the operation; on success stop; on
failure retry while fuel remains, else return the last error.  `fuel` is the
number of retries the exponential-backoff budget (`MaxElapsedTime`) still
allows, `k` the index of the current attempt. -/
def runAttempts (url : String) (mc : Int) (envs : Nat → AttemptEnv) :
    Nat → Nat → FS → FS × Except TaskError Unit
  | 0, k, fs => runOperation (envs k) url mc fs
  | fuel + 1, k, fs =>
    let r := runOperation (envs k) url mc fs
    match r.2 with
    | Except.ok u => (r.1, Except.ok u)
    | Except.error _ => runAttempts url mc envs fuel (k + 1) r.1

/-- One goroutine of `getComments` (main.go:47-101): wait on the shared rate
limiter (once, before the retry loop), then run the retry loop; a limiter
failure or retry exhaustion is only reported as a diagnostic — the goroutine
returns either way. -/
def runTask (url : String) (mc : Int) (limiterOk : Bool) (envs : Nat → AttemptEnv)
    (fuel : Nat) (fs : FS) : FS × List Diag :=
  if limiterOk then
    let r := runAttempts url mc envs fuel 0 fs
    match r.2 with
    | Except.ok _ => (r.1, [])
    | Except.error e => (r.1, [Diag.failedRetrieve e])
  else (fs, [Diag.rateLimitError])

/-- Script for one task: whether its limiter wait succeeds, its per-attempt
environments, and its retry fuel. -/
structure TaskScript where
  limiterOk : Bool
  envs : Nat → AttemptEnv
  fuel : Nat

/-- `getComments` (main.go:41-105) over a list of URLs with per-task scripts.
The goroutines run concurrently in Go, but tasks for distinct identifiers
touch disjoint files and the limiter only orders their starts, so the model
serializes them; `wg.Wait()` (main.go:104) is the fact that this function
returns only after every task's result is folded in.  Diagnostics are
collected in task order. -/
def getCommentsModel (mc : Int) : List (String × TaskScript) → FS → FS × List Diag
  | [], fs => (fs, [])
  | t :: rest, fs =>
    let r := runTask t.1 mc t.2.limiterOk t.2.envs t.2.fuel fs
    let r2 := getCommentsModel mc rest r.1
    (r2.1, r.2 ++ r2.2)

/-- An attempt-environment in which everything works except the remote call
(the API call of main.go:81 fails). -/
def envRemoteFail : AttemptEnv := AttemptEnv.mk true true (Except.error ()) none

/-- An attempt-environment in which everything works and the remote call
returns `recs`. -/
def envRemoteOk (recs : List CommentRecord) : AttemptEnv :=
  AttemptEnv.mk true true (Except.ok recs) none

/-- The empty file system. -/
def fsNone : FS := fun _ => none

/-- Events observable at the shared rate limiter and at the network:
a permit acquisition (`limiter.Wait` returning nil, main.go:50) and the
remote call of attempt `k` (`call.Do()`, main.go:81). -/
inductive Event where
  | permitAcquired
  | remoteCall (attempt : Nat)
deriving DecidableEq

/-- Whether an invocation of the `operation` closure reaches the remote call:
it does exactly when client construction, `getVideoId`, and the file open all
succeed (the steps preceding `call.Do()` in main.go:56-81). -/
def attemptReachesRemote (env : AttemptEnv) (url : String) : Bool :=
  env.clientOk
    && (match getVideoId url with | Except.ok _ => true | Except.error _ => false)
    && env.openOk

/-- The control-flow outcome of one `operation` invocation; it does not
depend on the file system or on `maxComments`. -/
def attemptOutcome (env : AttemptEnv) (url : String) : Except TaskError Unit :=
  (runOperation env url 0 fsNone).2

/-- The limiter/network events of the retry loop, attempt by attempt,
mirroring the control flow of `runAttempts`. -/
def attemptsTrace (url : String) (envs : Nat → AttemptEnv) : Nat → Nat → List Event
  | 0, k => if attemptReachesRemote (envs k) url then [Event.remoteCall k] else []
  | fuel + 1, k =>
    let ev := if attemptReachesRemote (envs k) url then [Event.remoteCall k] else []
    match attemptOutcome (envs k) url with
    | Except.ok _ => ev
    | Except.error _ => ev ++ attemptsTrace url envs fuel (k + 1)

/-- The limiter/network events of one goroutine (main.go:47-101): when the
single `limiter.Wait` succeeds, one permit acquisition followed by the retry
loop's events; when it fails, the goroutine returns before any attempt. -/
def taskTrace (url : String) (envs : Nat → AttemptEnv) (fuel : Nat) (limiterOk : Bool) :
    List Event :=
  if limiterOk then Event.permitAcquired :: attemptsTrace url envs fuel 0 else []

/-- Checks that every remote call in the trace has its own earlier permit
acquisition: walking the trace with `p` permits seen and `c` remote calls
seen, the next remote call needs `c < p`. -/
def checkPermits : List Event → Nat → Nat → Bool
  | [], _, _ => true
  | Event.permitAcquired :: rest, p, c => checkPermits rest (p + 1) c
  | Event.remoteCall _ :: rest, p, c => decide (c < p) && checkPermits rest p (c + 1)

/-- Number of permit acquisitions in a trace. -/
def countPermits : List Event → Nat
  | [] => 0
  | Event.permitAcquired :: rest => countPermits rest + 1
  | Event.remoteCall _ :: rest => countPermits rest

/-- Whether a result is a success. -/
def isOkB {E A : Type} : Except E A → Bool
  | Except.ok _ => true
  | Except.error _ => false

/-- Pure counting model of `backoff.Retry(operation, NewExponentialBackOff())`
(main.go:97): `op i` is the result of invocation `i`, `fuel` the number of
retries the backoff budget still allows, `j` the current invocation index.
Returns the final result and the number of invocations performed.  The
wrapper never inspects which error occurred, only that one occurred. -/
def backoffRetrySteps {E A : Type} (op : Nat → Except E A) : Nat → Nat → Except E A × Nat
  | 0, j => (op j, 1)
  | fuel + 1, j =>
    match op j with
    | Except.ok a => (Except.ok a, 1)
    | Except.error _ =>
      let r := backoffRetrySteps op fuel (j + 1)
      (r.1, r.2 + 1)

/-- Modelled from the spec: the token-bucket rate limiter's configuration.
The limiter implementation (`golang.org/x/time/rate`) is an external
dependency, not part of this repository; §3 and §4.1 of the spec describe it
as a capacity-bounded counter refilled at one token per fixed interval. -/
structure RateLimiterConfig where
  capacity : Nat
  intervalMs : Nat
deriving DecidableEq

/-- Modelled from the spec: the limiter's internal state, a token count and
the timestamp up to which refills have been credited. -/
structure RateLimiterState where
  tokens : Int
  lastRefillMs : Nat
deriving DecidableEq

/-- Modelled from the spec: credit the tokens earned by wall-clock time since
the last refill, capped at capacity. -/
def refill (cfg : RateLimiterConfig) (st : RateLimiterState) (nowMs : Nat) :
    RateLimiterState :=
  let added := (nowMs - st.lastRefillMs) / cfg.intervalMs
  RateLimiterState.mk (min (cfg.capacity : Int) (st.tokens + added))
    (st.lastRefillMs + added * cfg.intervalMs)

/-- Modelled from the spec: a serialized permit request at time `nowMs`
(mutation is mutex-guarded per §5, so concurrent requests interleave as a
sequence): refill, then take one token if available. -/
def tryAcquire (cfg : RateLimiterConfig) (st : RateLimiterState) (nowMs : Nat) :
    RateLimiterState × Bool :=
  let st1 := refill cfg st nowMs
  if 1 ≤ st1.tokens then (RateLimiterState.mk (st1.tokens - 1) st1.lastRefillMs, true)
  else (st1, false)

/-- The spec's token-count invariant: never negative, never above capacity. -/
def LimInv (cfg : RateLimiterConfig) (st : RateLimiterState) : Prop :=
  0 ≤ st.tokens ∧ st.tokens ≤ (cfg.capacity : Int)

/-- A serialized interleaving of permit requests: the state after processing
each request time in order. -/
def runAcquires (cfg : RateLimiterConfig) : List Nat → RateLimiterState → RateLimiterState
  | [], st => st
  | t :: ts, st => runAcquires cfg ts (tryAcquire cfg st t).1

/-- Burst size of the limiter constructed in `getComments`:
`rate.NewLimiter(rate.Every(time.Second), 1)` (main.go:43). -/
def limiterBurst : Nat := 1

/-- Refill interval of that limiter, in milliseconds: `rate.Every(time.Second)`
is one token per second (main.go:43). -/
def limiterIntervalMs : Nat := 1000

/-- The configuration of the limiter shared by all tasks (main.go:43). -/
def mainLimiterConfig : RateLimiterConfig :=
  RateLimiterConfig.mk limiterBurst limiterIntervalMs

/-- Failure modes of `rate.Limiter.Wait` per its documentation: the request
exceeds the burst size, or the context is cancelled / past its deadline.
Modelled from the library contract; the library source is not part of this
repository. -/
inductive WaitError where
  | burstExceeded
  | cancelled
deriving DecidableEq

/-- Modelled `limiter.Wait(ctx)` for a request of `n` tokens (`Wait` is
`WaitN(ctx, 1)`, main.go:50): an error of the limiter's own only when
`n` exceeds the burst, otherwise only the context's cancellation. -/
def limiterWait (n : Nat) (burst : Nat) (ctxCancelled : Bool) : Except WaitError Unit :=
  if burst < n then Except.error WaitError.burstExceeded
  else if ctxCancelled then Except.error WaitError.cancelled
  else Except.ok ()

theorem retrySteps_succeeds {E A : Type} (op : Nat → Except E A) (a : A) :
    ∀ (k fuel j : Nat), (∀ i, i < k → isOkB (op (j + i)) = false) →
      op (j + k) = Except.ok a → k ≤ fuel →
      backoffRetrySteps op fuel j = (Except.ok a, k + 1) := by
  intro k
  induction k with
  | zero =>
    intro fuel j _ hok _
    rw [Nat.add_zero] at hok
    cases fuel with
    | zero => simp [backoffRetrySteps, hok]
    | succ fuel => simp [backoffRetrySteps, hok]
  | succ k ih =>
    intro fuel j hfail hok hle
    have h0 : isOkB (op j) = false := by
      have h := hfail 0 (Nat.succ_pos k)
      rwa [Nat.add_zero] at h
    cases hop : op j with
    | ok a0 => rw [hop] at h0; simp [isOkB] at h0
    | error e0 =>
      cases fuel with
      | zero => omega
      | succ fuel =>
        have hfail2 : ∀ i, i < k → isOkB (op (j + 1 + i)) = false := by
          intro i hi
          have h := hfail (i + 1) (by omega)
          have e : j + (i + 1) = j + 1 + i := by omega
          rwa [e] at h
        have hok2 : op (j + 1 + k) = Except.ok a := by
          have e : j + (k + 1) = j + 1 + k := by omega
          rwa [e] at hok
        have ih2 := ih fuel (j + 1) hfail2 hok2 (by omega)
        simp [backoffRetrySteps, hop, ih2]

theorem retrySteps_allFail {E A : Type} (op : Nat → Except E A) (e : Nat → E)
    (h : ∀ i, op i = Except.error (e i)) :
    ∀ (fuel j : Nat), backoffRetrySteps op fuel j = (Except.error (e (j + fuel)), fuel + 1) := by
  intro fuel
  induction fuel with
  | zero => intro j; simp [backoffRetrySteps, h j]
  | succ fuel ih =>
    intro j
    have e2 : j + 1 + fuel = j + (fuel + 1) := by omega
    simp [backoffRetrySteps, h j, ih (j + 1), e2]

theorem retrySteps_count_congr {E1 A1 E2 A2 : Type} (op1 : Nat → Except E1 A1)
    (op2 : Nat → Except E2 A2) (h : ∀ i, isOkB (op1 i) = isOkB (op2 i)) :
    ∀ (fuel j : Nat), (backoffRetrySteps op1 fuel j).2 = (backoffRetrySteps op2 fuel j).2 := by
  intro fuel
  induction fuel with
  | zero => intro j; simp [backoffRetrySteps]
  | succ fuel ih =>
    intro j
    have hj := h j
    cases h1 : op1 j with
    | ok a =>
      cases h2 : op2 j with
      | ok b => simp [backoffRetrySteps, h1, h2]
      | error e2 => rw [h1, h2] at hj; simp [isOkB] at hj
    | error e1 =>
      cases h2 : op2 j with
      | ok b => rw [h1, h2] at hj; simp [isOkB] at hj
      | error e2 => simp [backoffRetrySteps, h1, h2, ih (j + 1)]

/-- C5: every error kind produced inside a task's attempt is routed through
the same retry wrapper and retried identically — the wrapper's behavior
depends only on the success/failure pattern of the attempts, never on which
`TaskError` occurred, and every error kind exhausts the full retry budget
rather than being made immediately terminal. -/
theorem c5_uniform_retry :
    (∀ (op1 op2 : Nat → Except TaskError Unit) (fuel : Nat),
        (∀ i, isOkB (op1 i) = isOkB (op2 i)) →
        (backoffRetrySteps op1 fuel 0).2 = (backoffRetrySteps op2 fuel 0).2) ∧
    (∀ (e : TaskError) (fuel : Nat),
        backoffRetrySteps (fun _ => (Except.error e : Except TaskError Unit)) fuel 0
          = (Except.error e, fuel + 1)) := by
  constructor
  · intro op1 op2 fuel h
    exact retrySteps_count_congr op1 op2 h fuel 0
  · intro e fuel
    exact retrySteps_allFail (fun _ => Except.error e) (fun _ => e) (fun _ => rfl) fuel 0

/-- Witness for C5 at concrete inputs: an always-`invalidURL` operation and an
always-`apiCallError` operation are retried the same number of times, and the
always-`writeError` operation consumes the whole budget. -/
theorem c5_uniform_retry_witness :
    (backoffRetrySteps (fun _ => (Except.error TaskError.invalidURL : Except TaskError Unit)) 4 0).2
        = (backoffRetrySteps (fun _ => (Except.error TaskError.apiCallError : Except TaskError Unit)) 4 0).2 ∧
    backoffRetrySteps (fun _ => (Except.error TaskError.writeError : Except TaskError Unit)) 4 0
        = (Except.error TaskError.writeError, 5) :=
  And.intro
    (c5_uniform_retry.1 (fun _ => Except.error TaskError.invalidURL)
      (fun _ => Except.error TaskError.apiCallError) 4 (fun _ => rfl))
    (c5_uniform_retry.2 TaskError.writeError 4)

/-- C6: an operation that fails exactly `k` times and then succeeds, with `k`
within the retry budget, makes the wrapper return the success value after
exactly `k + 1` invocations; an operation that always fails makes it return
the last observed error once the budget is spent. -/
theorem c6_retry_budget :
    (∀ (E A : Type) (op : Nat → Except E A) (e : Nat → E) (a : A) (k fuel : Nat),
        (∀ i, i < k → op i = Except.error (e i)) → op k = Except.ok a → k ≤ fuel →
        backoffRetrySteps op fuel 0 = (Except.ok a, k + 1)) ∧
    (∀ (E A : Type) (op : Nat → Except E A) (e : Nat → E) (fuel : Nat),
        (∀ i, op i = Except.error (e i)) →
        backoffRetrySteps op fuel 0 = (Except.error (e fuel), fuel + 1)) := by
  constructor
  · intro E A op e a k fuel hfail hok hle
    have hfail2 : ∀ i, i < k → isOkB (op (0 + i)) = false := by
      intro i hi
      rw [Nat.zero_add, hfail i hi]
      rfl
    have hok2 : op (0 + k) = Except.ok a := by rwa [Nat.zero_add]
    exact retrySteps_succeeds op a k fuel 0 hfail2 hok2 hle
  · intro E A op e fuel h
    have := retrySteps_allFail op e h fuel 0
    rwa [Nat.zero_add] at this

/-- Witness for C6 at a concrete input: an operation over `Nat` that fails
on attempts 0 and 1 and succeeds with 42 on attempt 2 returns `(ok 42, 3)`
under a budget of 5 retries, and an always-failing operation under a budget
of 4 retries returns its attempt-4 error after 5 invocations. -/
theorem c6_retry_budget_witness :
    backoffRetrySteps (fun i => if i < 2 then Except.error i else Except.ok 42) 5 0
        = (Except.ok 42, 3) ∧
    backoffRetrySteps (fun i => (Except.error i : Except Nat Nat)) 4 0
        = (Except.error 4, 5) :=
  And.intro
    (c6_retry_budget.1 Nat Nat (fun i => if i < 2 then Except.error i else Except.ok 42)
      (fun i => i) 42 2 5
      (by intro i hi; interval_cases i <;> rfl) (by rfl) (by omega))
    (c6_retry_budget.2 Nat Nat (fun i => Except.error i) (fun i => i) 4 (fun _ => rfl))

theorem runOperation_remoteOk (recs : List CommentRecord) (url vid : String) (mc : Int)
    (fs : FS) (h : getVideoId url = Except.ok vid) :
    runOperation (envRemoteOk recs) url mc fs
      = (FS.appendStr (FS.openAppendCreate fs (commentsFileName vid)) (commentsFileName vid)
          (formatRecords recs), Except.ok ()) := by
  simp [runOperation, envRemoteOk, h]

theorem runOperation_remoteFail (url vid : String) (mc : Int) (fs : FS)
    (h : getVideoId url = Except.ok vid) :
    runOperation envRemoteFail url mc fs
      = (FS.openAppendCreate fs (commentsFileName vid), Except.error TaskError.apiCallError) := by
  simp [runOperation, envRemoteFail, h]

theorem openAppendCreate_idem (fs : FS) (n : String) :
    FS.openAppendCreate (FS.openAppendCreate fs n) n = FS.openAppendCreate fs n := by
  funext m
  by_cases h : m = n <;> simp [FS.openAppendCreate, h]

theorem runAttempts_allFail (url vid : String) (mc : Int)
    (h : getVideoId url = Except.ok vid) :
    ∀ (fuel k : Nat) (fs : FS),
      runAttempts url mc (fun _ => envRemoteFail) fuel k fs
        = (FS.openAppendCreate fs (commentsFileName vid), Except.error TaskError.apiCallError) := by
  intro fuel
  induction fuel with
  | zero =>
    intro k fs
    simpa [runAttempts] using runOperation_remoteFail url vid mc fs h
  | succ fuel ih =>
    intro k fs
    simp [runAttempts, runOperation_remoteFail url vid mc fs h, ih (k + 1),
      openAppendCreate_idem]

theorem runAttempts_firstOk (recs : List CommentRecord) (url vid : String) (mc : Int)
    (h : getVideoId url = Except.ok vid) :
    ∀ (fuel k : Nat) (fs : FS),
      runAttempts url mc (fun _ => envRemoteOk recs) fuel k fs
        = (FS.appendStr (FS.openAppendCreate fs (commentsFileName vid)) (commentsFileName vid)
            (formatRecords recs), Except.ok ()) := by
  intro fuel k fs
  cases fuel with
  | zero => simpa [runAttempts] using runOperation_remoteOk recs url vid mc fs h
  | succ fuel => simp [runAttempts, runOperation_remoteOk recs url vid mc fs h]

theorem appendAfterOpen_self (fs : FS) (n s : String) :
    FS.appendStr (FS.openAppendCreate fs n) n s n = some ((fs n).getD "" ++ s) := by
  simp [FS.appendStr, FS.openAppendCreate]

theorem appendAfterOpen_other (fs : FS) (n s m : String) (h : m ≠ n) :
    FS.appendStr (FS.openAppendCreate fs n) n s m = fs m := by
  simp [FS.appendStr, FS.openAppendCreate, h]

/-- The stubbed remote records of the spec's concrete scenario. -/
def recsC3 : List CommentRecord :=
  [CommentRecord.mk "Alice" "hi", CommentRecord.mk "Bob" "nice video"]

/-- C3: for identifier "abc123", maxResults 2, and a remote capability
returning Alice/Bob records, the sink target is `comments_abc123.txt`
(opened append+create, which `FS.openAppendCreate` embeds), and after the run
it holds its pre-existing content followed by exactly the two lines
`Comment from Alice: hi` and `Comment from Bob: nice video`. -/
theorem c3_concrete_scenario :
    ∀ (fs : FS) (url : String) (fuel : Nat),
      getVideoId url = Except.ok "abc123" →
      commentsFileName "abc123" = "comments_abc123.txt" ∧
      formatRecords recsC3 = "Comment from Alice: hi\nComment from Bob: nice video\n" ∧
      (runTask url 2 true (fun _ => envRemoteOk recsC3) fuel fs).1 "comments_abc123.txt"
        = some (((fs "comments_abc123.txt").getD "") ++ formatRecords recsC3) ∧
      (runTask url 2 true (fun _ => envRemoteOk recsC3) fuel fs).2 = [] := by
  intro fs url fuel h
  have hrun := runAttempts_firstOk recsC3 url "abc123" 2 h fuel 0 fs
  have hcfn : commentsFileName "abc123" = "comments_abc123.txt" := rfl
  refine ⟨rfl, rfl, ?_, ?_⟩
  · simp [runTask, hrun, hcfn.symm, appendAfterOpen_self]
  · simp [runTask, hrun]

/-- A file system in which the sink file pre-exists with other content. -/
def fsC3Pre : FS := fun n => if n = "comments_abc123.txt" then some "old\n" else none

/-- Witness for C3 at the concrete URL, with a pre-existing sink file. -/
theorem c3_concrete_scenario_witness :
    (runTask "https://www.youtube.com/watch?v=abc123" 2 true (fun _ => envRemoteOk recsC3) 0
        fsC3Pre).1 "comments_abc123.txt"
      = some (((fsC3Pre "comments_abc123.txt").getD "") ++ formatRecords recsC3) ∧
    (runTask "https://www.youtube.com/watch?v=abc123" 2 true (fun _ => envRemoteOk recsC3) 0
        fsC3Pre).2 = [] := by
  have h := c3_concrete_scenario fsC3Pre "https://www.youtube.com/watch?v=abc123" 0 (by rfl)
  exact ⟨h.2.2.1, h.2.2.2⟩

/-- URL of the always-failing task in the spec's two-task scenario. -/
def urlA : String := "https://www.youtube.com/watch?v=aaa"

/-- URL of the always-succeeding task in the spec's two-task scenario. -/
def urlB : String := "https://www.youtube.com/watch?v=bbb"

/-- C4: with identifiers [A, B] where A's remote call always fails and B's
always succeeds, the run folds both tasks to completion and returns: A's
exhaustion is only reported on the diagnostic channel, and B's records are
written to B's sink regardless — no task failure aborts, cancels, or blocks
the sibling. -/
theorem c4_failing_sibling_independent :
    ∀ (mc : Int) (fs : FS) (recs : List CommentRecord) (fuelA fuelB : Nat),
      (getCommentsModel mc
          [(urlA, TaskScript.mk true (fun _ => envRemoteFail) fuelA),
           (urlB, TaskScript.mk true (fun _ => envRemoteOk recs) fuelB)] fs).2
        = [Diag.failedRetrieve TaskError.apiCallError] ∧
      (getCommentsModel mc
          [(urlA, TaskScript.mk true (fun _ => envRemoteFail) fuelA),
           (urlB, TaskScript.mk true (fun _ => envRemoteOk recs) fuelB)] fs).1
          "comments_bbb.txt"
        = some (((fs "comments_bbb.txt").getD "") ++ formatRecords recs) := by
  intro mc fs recs fuelA fuelB
  have hA : getVideoId urlA = Except.ok "aaa" := rfl
  have hB : getVideoId urlB = Except.ok "bbb" := rfl
  have hne : ("comments_bbb.txt" : String) ≠ "comments_aaa.txt" := by decide
  have hcA : commentsFileName "aaa" = "comments_aaa.txt" := rfl
  have hcB : commentsFileName "bbb" = "comments_bbb.txt" := rfl
  constructor
  · simp [getCommentsModel, runTask, runAttempts_allFail urlA "aaa" mc hA,
      runAttempts_firstOk recs urlB "bbb" mc hB]
  · simp [getCommentsModel, runTask, runAttempts_allFail urlA "aaa" mc hA,
      runAttempts_firstOk recs urlB "bbb" mc hB, hcA, hcB, appendAfterOpen_self]
    simp [FS.openAppendCreate, hne]

/-- The characters a failing invocation of the `operation` closure appends to
the sink: nothing when the attempt fails before the remote call or at it, and
the flushed prefix `strTake (formatRecords items) p` when the write path
fails after `p` characters have reached the file.  (For an attempt that
succeeds this value is unused and taken to be empty.) -/
def attemptFailAppend (env : AttemptEnv) (url : String) : String :=
  if attemptReachesRemote env url then
    match env.remoteResult with
    | Except.error _ => ""
    | Except.ok items =>
      match env.writeFailAfter with
      | some p => strTake (formatRecords items) p
      | none => ""
  else ""

/-- Concatenation of the failed attempts' flushed output over attempts
`k, k + 1, ..., k + fuel` — a retry-exhausted task runs exactly these. -/
def appendsFrom (url : String) (envs : Nat → AttemptEnv) : Nat → Nat → String
  | 0, k => attemptFailAppend (envs k) url
  | fuel + 1, k => attemptFailAppend (envs k) url ++ appendsFrom url envs fuel (k + 1)

/-- Whether any of attempts `k ... k + fuel` reaches its file open (and so
creates or touches the sink). -/
def anyOpens (url : String) (envs : Nat → AttemptEnv) : Nat → Nat → Bool
  | 0, k => attemptReachesRemote (envs k) url
  | fuel + 1, k => attemptReachesRemote (envs k) url || anyOpens url envs fuel (k + 1)

/-- The flushed output of a whole retry-exhausted task (attempts `0 ... fuel`):
a concatenation of per-attempt prefixes of formatted fetched records. -/
def taskFailAppends (url : String) (envs : Nat → AttemptEnv) (fuel : Nat) : String :=
  appendsFrom url envs fuel 0

theorem appendsFrom_eq_empty (url : String) (envs : Nat → AttemptEnv) :
    ∀ (fuel k : Nat), anyOpens url envs fuel k = false → appendsFrom url envs fuel k = "" := by
  intro fuel
  induction fuel with
  | zero =>
    intro k h
    simp [anyOpens] at h
    simp [appendsFrom, attemptFailAppend, h]
  | succ fuel ih =>
    intro k h
    simp [anyOpens] at h
    simp [appendsFrom, attemptFailAppend, h.1, ih (k + 1) h.2, String.empty_append]

theorem runOperation_error_effect (env : AttemptEnv) (url vid : String) (mc : Int) (fs : FS)
    (hvid : getVideoId url = Except.ok vid) (e : TaskError)
    (h : (runOperation env url mc fs).2 = Except.error e) :
    (∀ m, m ≠ commentsFileName vid → (runOperation env url mc fs).1 m = fs m) ∧
    (runOperation env url mc fs).1 (commentsFileName vid)
      = (if attemptReachesRemote env url then
          some (((fs (commentsFileName vid)).getD "") ++ attemptFailAppend env url)
        else fs (commentsFileName vid)) := by
  by_cases hc : env.clientOk = false
  · simp [runOperation, hc, attemptReachesRemote]
  · by_cases ho : env.openOk = false
    · simp [runOperation, hc, ho, hvid, attemptReachesRemote]
    · cases hr : env.remoteResult with
      | error u =>
        constructor
        · intro m hm
          simp [runOperation, hc, ho, hvid, hr, FS.openAppendCreate, hm]
        · simp [runOperation, hc, ho, hvid, hr, attemptReachesRemote, attemptFailAppend,
            FS.openAppendCreate, String.append_empty]
      | ok items =>
        cases hw : env.writeFailAfter with
        | some p =>
          constructor
          · intro m hm
            simp [runOperation, hc, ho, hvid, hr, hw, appendAfterOpen_other _ _ _ _ hm]
          · simp [runOperation, hc, ho, hvid, hr, hw, attemptReachesRemote, attemptFailAppend,
              appendAfterOpen_self]
        | none =>
          simp [runOperation, hc, ho, hvid, hr, hw] at h

theorem runAttempts_parseError_fs (url : String) (mc : Int) (envs : Nat → AttemptEnv)
    (msg : String) (h : getVideoId url = Except.error msg) :
    ∀ (fuel k : Nat) (fs : FS), (runAttempts url mc envs fuel k fs).1 = fs := by
  intro fuel
  induction fuel with
  | zero =>
    intro k fs
    by_cases hc : (envs k).clientOk = false <;> simp [runAttempts, runOperation, hc, h]
  | succ fuel ih =>
    intro k fs
    by_cases hc : (envs k).clientOk = false <;>
      simp [runAttempts, runOperation, hc, h, ih (k + 1)]

theorem runAttempts_error_effect (url vid : String) (mc : Int) (envs : Nat → AttemptEnv)
    (hvid : getVideoId url = Except.ok vid) :
    ∀ (fuel k : Nat) (fs : FS) (e : TaskError),
      (runAttempts url mc envs fuel k fs).2 = Except.error e →
      (∀ m, m ≠ commentsFileName vid → (runAttempts url mc envs fuel k fs).1 m = fs m) ∧
      (runAttempts url mc envs fuel k fs).1 (commentsFileName vid)
        = (if anyOpens url envs fuel k then
            some (((fs (commentsFileName vid)).getD "") ++ appendsFrom url envs fuel k)
          else fs (commentsFileName vid)) := by
  intro fuel
  induction fuel with
  | zero =>
    intro k fs e h
    have h2 : (runOperation (envs k) url mc fs).2 = Except.error e := by
      simpa [runAttempts] using h
    have heff := runOperation_error_effect (envs k) url vid mc fs hvid e h2
    constructor
    · intro m hm
      simpa [runAttempts] using heff.1 m hm
    · simpa [runAttempts, anyOpens, appendsFrom] using heff.2
  | succ fuel ih =>
    intro k fs e h
    cases hr : (runOperation (envs k) url mc fs).2 with
    | ok u =>
      have heq : runAttempts url mc envs (fuel + 1) k fs
          = ((runOperation (envs k) url mc fs).1, Except.ok u) := by
        simp [runAttempts, hr]
      rw [heq] at h
      simp at h
    | error e0 =>
      have heq : runAttempts url mc envs (fuel + 1) k fs
          = runAttempts url mc envs fuel (k + 1) (runOperation (envs k) url mc fs).1 := by
        simp [runAttempts, hr]
      rw [heq] at h ⊢
      have hop := runOperation_error_effect (envs k) url vid mc fs hvid e0 hr
      have ihh := ih (k + 1) (runOperation (envs k) url mc fs).1 e h
      constructor
      · intro m hm
        rw [ihh.1 m hm, hop.1 m hm]
      · rw [ihh.2, hop.2]
        cases hra : attemptReachesRemote (envs k) url with
        | false =>
          have hpiece : attemptFailAppend (envs k) url = "" := by
            simp [attemptFailAppend, hra]
          cases hry : anyOpens url envs fuel (k + 1) with
          | false =>
            simp [anyOpens, hra, hry]
          | true =>
            simp [anyOpens, hra, hry, appendsFrom, hpiece, String.empty_append]
        | true =>
          cases hry : anyOpens url envs fuel (k + 1) with
          | false =>
            simp [anyOpens, hra, hry, appendsFrom, appendsFrom_eq_empty url envs fuel (k + 1) hry,
              String.append_empty]
          | true =>
            simp [anyOpens, hra, hry, appendsFrom, String.append_assoc]

/-- C7 counterexample: the claim "when a task terminates with a failure its
sink output has not been brought into existence (state unchanged on error)"
is false on the code: the file is opened with `O_CREATE` before the remote
call (main.go:71-81), so a task whose remote call fails leaves a newly
created empty sink file behind. -/
theorem c7_counterexample :
    ¬ (∀ (url : String) (mc : Int) (envs : Nat → AttemptEnv) (fuel : Nat) (fs : FS),
        (runTask url mc true envs fuel fs).2 ≠ [] →
        ∀ m, (runTask url mc true envs fuel fs).1 m = fs m) := by
  intro h
  have h2 := h "https://www.youtube.com/watch?v=abc" 2 (fun _ => envRemoteFail) 0 fsNone
      (by decide) "comments_abc.txt"
  exact absurd h2 (by decide)

/-- C7 amended: when a task terminates with a failure, every file other than
its sink is unchanged, and the sink's pre-existing content is preserved as a
prefix — the failed task may have created the sink (the append+create open
precedes the failing step) and appended after the old content exactly its
failed attempts' flushed output, a concatenation of prefixes of the formatted
records of the attempts' responses (empty for attempts failing before or at
the remote call); it never overwrites or erases existing content. -/
theorem c7_amended :
    ∀ (url : String) (mc : Int) (limiterOk : Bool) (envs : Nat → AttemptEnv)
      (fuel : Nat) (fs : FS),
      (runTask url mc limiterOk envs fuel fs).2 ≠ [] →
      ∀ m, (runTask url mc limiterOk envs fuel fs).1 m = fs m ∨
        (∃ vid, getVideoId url = Except.ok vid ∧ m = commentsFileName vid ∧
          (runTask url mc limiterOk envs fuel fs).1 m
            = some (((fs m).getD "") ++ taskFailAppends url envs fuel)) := by
  intro url mc limiterOk envs fuel fs hne m
  cases limiterOk with
  | false =>
    left
    simp [runTask]
  | true =>
    cases hr : (runAttempts url mc envs fuel 0 fs).2 with
    | ok u =>
      exact absurd (by simp [runTask, hr]) hne
    | error e =>
      have h1 : (runTask url mc true envs fuel fs).1 = (runAttempts url mc envs fuel 0 fs).1 := by
        simp [runTask, hr]
      rw [h1]
      cases hvid : getVideoId url with
      | error msg =>
        left
        rw [runAttempts_parseError_fs url mc envs msg hvid fuel 0 fs]
      | ok vid =>
        have heff := runAttempts_error_effect url vid mc envs hvid fuel 0 fs e hr
        by_cases hm : m = commentsFileName vid
        · cases hany : anyOpens url envs fuel 0 with
          | false =>
            left
            rw [hm, heff.2, hany]
            simp
          | true =>
            right
            refine ⟨vid, rfl, hm, ?_⟩
            rw [hm, heff.2, hany]
            simp [taskFailAppends]
        · left
          exact heff.1 m hm

/-- An attempt-environment whose remote call succeeds but whose buffered
write path fails after five characters have been flushed to the file. -/
def envWriteFail : AttemptEnv :=
  AttemptEnv.mk true true (Except.ok [CommentRecord.mk "A" "x"]) (some 5)

/-- Witness for C7 amended at a concrete input: a task whose write path fails
after a five-character flush leaves the sink holding exactly that flushed
prefix `Comme` of `Comment from A: x` after the (empty) prior content. -/
theorem c7_amended_witness :
    ((runTask "https://www.youtube.com/watch?v=abc" 2 true (fun _ => envWriteFail) 0 fsNone).1
        "comments_abc.txt" = fsNone "comments_abc.txt" ∨
      (∃ vid, getVideoId "https://www.youtube.com/watch?v=abc" = Except.ok vid ∧
        "comments_abc.txt" = commentsFileName vid ∧
        (runTask "https://www.youtube.com/watch?v=abc" 2 true (fun _ => envWriteFail) 0
            fsNone).1 "comments_abc.txt"
          = some (((fsNone "comments_abc.txt").getD "")
              ++ taskFailAppends "https://www.youtube.com/watch?v=abc"
                  (fun _ => envWriteFail) 0))) ∧
    taskFailAppends "https://www.youtube.com/watch?v=abc" (fun _ => envWriteFail) 0
      = "Comme" ∧
    (runTask "https://www.youtube.com/watch?v=abc" 2 true (fun _ => envWriteFail) 0 fsNone).1
        "comments_abc.txt" = some "Comme" :=
  And.intro
    (c7_amended "https://www.youtube.com/watch?v=abc" 2 true (fun _ => envWriteFail) 0 fsNone
      (by decide) "comments_abc.txt")
    (And.intro (by decide) (by decide))

theorem countPermits_append (a b : List Event) :
    countPermits (a ++ b) = countPermits a + countPermits b := by
  induction a with
  | nil => simp [countPermits]
  | cons x xs ih => cases x <;> simp [countPermits, ih] <;> omega

theorem countPermits_attemptsTrace (url : String) (envs : Nat → AttemptEnv) :
    ∀ (fuel k : Nat), countPermits (attemptsTrace url envs fuel k) = 0 := by
  intro fuel
  induction fuel with
  | zero =>
    intro k
    simp [attemptsTrace]
    split <;> simp [countPermits]
  | succ fuel ih =>
    intro k
    cases ho : attemptOutcome (envs k) url with
    | ok u =>
      simp [attemptsTrace, ho]
      split <;> simp [countPermits]
    | error e =>
      simp [attemptsTrace, ho, countPermits_append, ih (k + 1)]
      split <;> simp [countPermits]

/-- C1 fails on the code: the single `limiter.Wait` (main.go:50) precedes
`backoff.Retry` (main.go:97), so retry attempts issue remote calls without
re-acquiring a permit.  At the concrete failing input — a task whose first
remote call fails and which retries once — the event trace holds one permit
acquisition and two remote calls, so the second call has no attempt-specific
permit (`checkPermits` rejects the trace); in general every task acquires
exactly one permit no matter how many attempts it makes. -/
theorem c1_code_behavior :
    taskTrace "https://www.youtube.com/watch?v=abc" (fun _ => envRemoteFail) 1 true
      = [Event.permitAcquired, Event.remoteCall 0, Event.remoteCall 1] ∧
    checkPermits
        (taskTrace "https://www.youtube.com/watch?v=abc" (fun _ => envRemoteFail) 1 true) 0 0
      = false ∧
    (∀ (url : String) (envs : Nat → AttemptEnv) (fuel : Nat),
        countPermits (taskTrace url envs fuel true) = 1) := by
  refine ⟨by decide, by decide, ?_⟩
  intro url envs fuel
  simp [taskTrace, countPermits, countPermits_attemptsTrace url envs fuel 0]

/-- C2 counterexample: extraction can succeed while carrying an empty
identifier — `getVideoId` of a well-formed watch URL without a `v` query
parameter returns `("", nil)` (main.go:38 returns `u.Query().Get("v")` with a
nil error), so the task does not fail fast on an empty identifier. -/
theorem c2_counterexample :
    ¬ (∀ (s v : String), getVideoId s = Except.ok v → v ≠ "") := by
  intro h
  exact h "https://www.youtube.com/watch" "" rfl rfl

/-- C2 amended: identifier extraction fails exactly when URL parsing fails
(modelled failure condition: a control character in the locator); an empty
extracted identifier is never an error. -/
theorem c2_amended : ∀ (s : String), isOkB (getVideoId s) = !(containsCtl s) := by
  intro s
  cases h : containsCtl s <;> simp [getVideoId, h, isOkB]

/-- C10: a locator that parses as a URL but carries no `v` query parameter
yields the empty identifier with no error, and the task proceeds with it:
the sink target is the fixed file `comments_.txt`, which receives the fetched
records instead of the task failing. -/
theorem c10_empty_id_proceeds :
    ∀ (s : String) (fs : FS) (recs : List CommentRecord) (fuel : Nat),
      containsCtl s = false → urlQueryGet s "v" = "" →
      getVideoId s = Except.ok "" ∧
      commentsFileName "" = "comments_.txt" ∧
      (runTask s 2 true (fun _ => envRemoteOk recs) fuel fs).1 "comments_.txt"
        = some (((fs "comments_.txt").getD "") ++ formatRecords recs) ∧
      (runTask s 2 true (fun _ => envRemoteOk recs) fuel fs).2 = [] := by
  intro s fs recs fuel h1 h2
  have hid : getVideoId s = Except.ok "" := by simp [getVideoId, h1, h2]
  have hrun := runAttempts_firstOk recs s "" 2 hid fuel 0 fs
  have hcfn : commentsFileName "" = "comments_.txt" := rfl
  refine ⟨hid, rfl, ?_, ?_⟩
  · simp [runTask, hrun, hcfn.symm, appendAfterOpen_self]
  · simp [runTask, hrun]

/-- Witness for C10 at the concrete locator `https://www.youtube.com/watch`. -/
theorem c10_empty_id_proceeds_witness :
    getVideoId "https://www.youtube.com/watch" = Except.ok "" ∧
    (runTask "https://www.youtube.com/watch" 2 true
        (fun _ => envRemoteOk [CommentRecord.mk "X" "y"]) 0 fsNone).1 "comments_.txt"
      = some (((fsNone "comments_.txt").getD "")
          ++ formatRecords [CommentRecord.mk "X" "y"]) ∧
    (runTask "https://www.youtube.com/watch" 2 true
        (fun _ => envRemoteOk [CommentRecord.mk "X" "y"]) 0 fsNone).2 = [] := by
  have h := c10_empty_id_proceeds "https://www.youtube.com/watch" fsNone
      [CommentRecord.mk "X" "y"] 0 (by decide) (by rfl)
  exact ⟨h.1, h.2.2.1, h.2.2.2⟩

theorem limInv_refill (cfg : RateLimiterConfig) (st : RateLimiterState) (nowMs : Nat)
    (h : LimInv cfg st) : LimInv cfg (refill cfg st nowMs) := by
  obtain ⟨h1, h2⟩ := h
  constructor
  · refine le_min (Int.natCast_nonneg _) ?_
    have : (0 : Int) ≤ ((nowMs - st.lastRefillMs) / cfg.intervalMs : Nat) :=
      Int.natCast_nonneg _
    simp [refill]
    omega
  · exact min_le_left _ _

theorem limInv_tryAcquire (cfg : RateLimiterConfig) (st : RateLimiterState) (nowMs : Nat)
    (h : LimInv cfg st) : LimInv cfg (tryAcquire cfg st nowMs).1 := by
  have hre := limInv_refill cfg st nowMs h
  by_cases hc : 1 ≤ (refill cfg st nowMs).tokens
  · obtain ⟨h1, h2⟩ := hre
    simp [tryAcquire, hc, LimInv]
    omega
  · simpa [tryAcquire, hc] using hre

theorem limInv_runAcquires (cfg : RateLimiterConfig) :
    ∀ (times : List Nat) (st : RateLimiterState), LimInv cfg st →
      LimInv cfg (runAcquires cfg times st) := by
  intro times
  induction times with
  | nil => intro st h; simpa [runAcquires] using h
  | cons t ts ih =>
    intro st h
    simpa [runAcquires] using ih (tryAcquire cfg st t).1 (limInv_tryAcquire cfg st t h)

theorem tryAcquire_decrements (cfg : RateLimiterConfig) (st : RateLimiterState) (nowMs : Nat)
    (h : (tryAcquire cfg st nowMs).2 = true) :
    (tryAcquire cfg st nowMs).1.tokens = (refill cfg st nowMs).tokens - 1 := by
  by_cases hc : 1 ≤ (refill cfg st nowMs).tokens
  · simp [tryAcquire, hc]
  · simp [tryAcquire, hc] at h

theorem refill_mono (cfg : RateLimiterConfig) (st : RateLimiterState) (n1 n2 : Nat)
    (h : n1 ≤ n2) : (refill cfg st n1).tokens ≤ (refill cfg st n2).tokens := by
  have hd : (n1 - st.lastRefillMs) / cfg.intervalMs ≤ (n2 - st.lastRefillMs) / cfg.intervalMs :=
    Nat.div_le_div_right (Nat.sub_le_sub_right h _)
  simp [refill]
  omega

/-- C8: for every serialized interleaving of permit requests (the spec's
mutex makes concurrent requests a sequence), the token count stays within
`[0, capacity]`; a granted request's state is exactly the refilled state
minus one token; and refill is monotone in elapsed wall-clock time.  The
limiter implementation is an external dependency, so this is proved of the
spec-modelled token bucket. -/
theorem c8_token_bucket :
    ∀ (cfg : RateLimiterConfig) (st : RateLimiterState) (times : List Nat),
      LimInv cfg st →
      LimInv cfg (runAcquires cfg times st) ∧
      (∀ nowMs, (tryAcquire cfg st nowMs).2 = true →
          (tryAcquire cfg st nowMs).1.tokens = (refill cfg st nowMs).tokens - 1) ∧
      (∀ n1 n2, n1 ≤ n2 → (refill cfg st n1).tokens ≤ (refill cfg st n2).tokens) := by
  intro cfg st times h
  exact ⟨limInv_runAcquires cfg times st h,
    fun nowMs hg => tryAcquire_decrements cfg st nowMs hg,
    fun n1 n2 hle => refill_mono cfg st n1 n2 hle⟩

/-- Witness for C8: capacity 1, interval 1s, a full bucket, and three permit
requests at 0ms, 500ms and 1500ms keep the invariant. -/
theorem c8_token_bucket_witness :
    LimInv (RateLimiterConfig.mk 1 1000)
      (runAcquires (RateLimiterConfig.mk 1 1000) [0, 500, 1500]
        (RateLimiterState.mk 1 0)) :=
  (c8_token_bucket (RateLimiterConfig.mk 1 1000) (RateLimiterState.mk 1 0) [0, 500, 1500]
    ⟨by decide, by decide⟩).1

/-- C9: the shared limiter is constructed with capacity 1 and refill interval
one second (main.go:43), and for the program's one-token requests
(`limiter.Wait`, main.go:50) its wait can only fail with a cancellation
outcome — never an error of the limiter's own, since the request size never
exceeds the burst. -/
theorem c9_limiter_config :
    mainLimiterConfig.capacity = 1 ∧ mainLimiterConfig.intervalMs = 1000 ∧
    (∀ (ctxCancelled : Bool) (e : WaitError),
        limiterWait 1 limiterBurst ctxCancelled = Except.error e →
        e = WaitError.cancelled) := by
  refine ⟨rfl, rfl, ?_⟩
  intro ctxCancelled e h
  cases ctxCancelled with
  | false => simp [limiterWait, limiterBurst] at h
  | true =>
    simp [limiterWait, limiterBurst] at h
    exact h.symm

/-- Witness for C9: a cancelled context at the concrete call. -/
theorem c9_limiter_config_witness :
    limiterWait 1 limiterBurst true = Except.error WaitError.cancelled ∧
    WaitError.cancelled = WaitError.cancelled :=
  And.intro rfl (c9_limiter_config.2.2 true WaitError.cancelled rfl)
